import Mathlib

/-!
Verification of the benediction procedural pixel-effect library (`src/lib.rs`)
against its natural-language specification.

The Rust source is shallowly embedded as follows:
- `u32`/`usize` become `ℕ`, except that the one source computation that can
  wrap — the `u32` grid-size product `(width+2)*(height+2)` of `Fire`
  (lib.rs:332, 338, 351), which overflows at `width = height = 65534` — is
  modelled with an explicit `% 2^32` (`u32size`, release wrapping semantics;
  debug builds panic at the same point). The remaining integer arithmetic is
  exact: the `i16` neighbour sum is bounded by `4*255 = 1020`, and the `u32`
  cell offsets stay below the grid size whenever the size product does not
  overflow. `Fire.render?` additionally models the index-panic semantics of
  the render call: `none` when some access is out of bounds of the healed
  grid;
- `f32` values become `ℝ` (or `ℚ` where exact evaluation is needed); `f32`
  saturating casts (`as u8`, `as usize`), `round` (half away from zero),
  truncation, `floor` and `clamp` are modelled explicitly;
- `Vec<u8>` / `Box<[[u8;3]]>` become `Array ℕ` / `Array (ℕ × ℕ × ℕ)` with the
  in-bounds guarded write `aset` and defaulting read `aget` (the in-bounds
  claims are proved separately);
- the `FnMut(Scalar, Scalar, Pixel)` pixel sink becomes the list of `put`
  invocations, in invocation order (`rowTrace` is the embedding of the
  `for y in 0..height { for x in 0..width { .. put(x, y, pixel) } }` loops);
- the process-wide random source (`fastrand`) becomes an explicit parameter:
  the blobs drawn in `Blobs::new`, and a `rand : ℕ → Bool` giving the result
  of the comparison `fastrand::f32() > 0.7` for each column in `Fire::render`.
-/

/-- Array write guarded by the index bound, the behaviour of a Rust in-bounds
slice write `a[i] = v`; out-of-range writes are left as the identity and are
separately proved not to occur. -/
def aset {α : Type} (a : Array α) (i : Nat) (v : α) : Array α :=
  if h : i < a.size then a.set ⟨i, h⟩ v else a

/-- Array read defaulting to 0, the behaviour of a Rust in-bounds slice read
`a[i]`; out-of-range reads default and are separately proved not to occur. -/
def aget (a : Array Nat) (i : Nat) : Nat :=
  a.getD i 0

/-- Array read of an RGB triple, defaulting to black. -/
def aget3 (a : Array (Nat × Nat × Nat)) (i : Nat) : Nat × Nat × Nat :=
  a.getD i (0, 0, 0)

/-- Color of one cell: `Default` (no explicit color), `Transparent`, or an RGB
triple of bytes, from the `Color` enum of the source. -/
inductive Color where
  | Default : Color
  | Transparent : Color
  | Rgb : Nat × Nat × Nat → Color
deriving DecidableEq

/-- One rendered cell: a character plus foreground/background color, from the
`Pixel` struct of the source. -/
structure Pixel where
  ch : Char
  fg : Color
  bg : Color
deriving DecidableEq

/-- Trace of the `put(x, y, pixel)` invocations of the double loop
`for y in 0..height { for x in 0..width { put(x, y, f x y) } }` shared by
every render entry point of the source, in invocation order. -/
def rowTrace (width height : Nat) (f : Nat → Nat → Pixel) : List (Nat × Nat × Pixel) :=
  (List.range height).flatMap fun y => (List.range width).map fun x => (x, y, f x y)

/-- The row-major enumeration of the grid coordinates: `y` outer ascending,
`x` inner ascending. -/
def pairList (width height : Nat) : List (Nat × Nat) :=
  (List.range height).flatMap fun y => (List.range width).map fun x => (x, y)

/-- Coordinates of a trace of sink invocations, in invocation order. -/
def coords (l : List (Nat × Nat × Pixel)) : List (Nat × Nat) :=
  l.map fun p => (p.1, p.2.1)

/-- Rust `f32::round`: round half away from zero. For the nonnegative inputs
arising in this code it agrees with round-half-up `round`. -/
noncomputable def f32round (x : ℝ) : ℤ :=
  if 0 ≤ x then round x else -round (-x)

/-- Rust float-to-integer truncation (toward zero), the first stage of an
`as` cast. -/
noncomputable def ftrunc (x : ℝ) : ℤ :=
  if 0 ≤ x then ⌊x⌋ else -⌊-x⌋

/-- Rust saturating integer-to-`u8` narrowing: clamp into `[0, 255]`. -/
def u8ofInt (n : ℤ) : ℕ :=
  (max 0 (min 255 n)).toNat

/-- Rust `f32::clamp(lo, hi)` on reals. -/
noncomputable def fclamp (x lo hi : ℝ) : ℝ :=
  max lo (min hi x)

/-- The channel scaling of `Color::from_float`:
`(255.0_f32 * d.clamp(0.0, 1.0)).round() as u8`. -/
noncomputable def Color.scale (d : ℝ) : ℕ :=
  u8ofInt (f32round (255 * fclamp d 0 1))

/-- Embedding of `Color::from_float([r, g, b])` (src/lib.rs:28-31): clamp each
channel to `[0,1]`, scale by 255, round, narrow to a byte, yielding `Rgb`. -/
noncomputable def Color.from_float (r g b : ℝ) : Color :=
  Color.Rgb (Color.scale r, Color.scale g, Color.scale b)

/-- Embedding of `inverse_lerp` (src/lib.rs:5-10): degenerate endpoints return
0 instead of dividing by zero. -/
noncomputable def inverse_lerp (x y t : ℝ) : ℝ :=
  if x = y then 0 else (t - x) / (y - x)

/-- Embedding of `f32::atan2` (used by `spiral`): the principal argument of
the point `(x, y)`. -/
noncomputable def atan2 (y x : ℝ) : ℝ :=
  Complex.arg ⟨x, y⟩

/-- Embedding of `vertical_wave` (src/lib.rs:53-76). -/
noncomputable def vertical_wave (dt : ℝ) (width height : Nat) : List (Nat × Nat × Pixel) :=
  let speed : ℝ := 3
  let freq : ℝ := 0.05
  let amp : ℝ := (width : ℝ) / 4
  rowTrace width height fun x y =>
    let phase := Real.sin ((y : ℝ) * freq + dt * speed) * amp
    let intensity := |((x : ℝ) - (width : ℝ) / 2 + phase) / amp|
    let intensity := fclamp (1 - intensity) 0 1
    { ch := ' ',
      bg := Color.from_float (intensity * 0.3) (intensity * 0.3) intensity,
      fg := Color.Default }

/-- Embedding of `horizontal_wave` (src/lib.rs:78-101). -/
noncomputable def horizontal_wave (dt : ℝ) (width height : Nat) : List (Nat × Nat × Pixel) :=
  let speed : ℝ := 3
  let freq : ℝ := 0.07
  let amp : ℝ := (height : ℝ) / 4
  rowTrace width height fun x y =>
    let phase := Real.sin (((x : ℝ) / 2.1) * freq + dt * speed) * amp
    let intensity := |((y : ℝ) - (height : ℝ) / 2 + phase) / amp|
    let intensity := fclamp (1 - intensity) 0 1
    { ch := ' ',
      bg := Color.from_float intensity (intensity * 0.3) (intensity * 0.3),
      fg := Color.Default }

/-- Embedding of `pulse` (src/lib.rs:103-123). -/
noncomputable def pulse (dt : ℝ) (width height : Nat) : List (Nat × Nat × Pixel) :=
  let cx : ℝ := (width : ℝ) / 2
  let cy : ℝ := (height : ℝ) / 2
  let speed : ℝ := 2 * Real.pi
  rowTrace width height fun x y =>
    let l := inverse_lerp 0 ((width : ℝ) - 1) (x : ℝ)
    let freq := |Real.sin (l + dt)| * 0.5
    let dx := |((x : ℝ) - cx) / 2.1|
    let dy := |(y : ℝ) - cy|
    let dist := max dx dy
    let pl := |Real.cos (dist * freq - speed * dt)|
    { ch := ' ',
      bg := Color.from_float (pl * l + 0.1) (pl * l + 0.2) (pl * l + 0.3),
      fg := Color.Default }

/-- Embedding of `spiral` (src/lib.rs:125-149). -/
noncomputable def spiral (t : ℝ) (width height : Nat) : List (Nat × Nat × Pixel) :=
  let cx : ℝ := (width : ℝ) / 2
  let cy : ℝ := (height : ℝ) / 2
  let arms : ℝ := 6
  let spin : ℝ := 1
  let factor : ℝ := 0.1
  let s : List Char := ['▮', '─', '━', '█', '╌', '╍', '═', '■']
  rowTrace width height fun x y =>
    let dx := ((x : ℝ) - cx) / 2.1
    let dy := (y : ℝ) - cy
    let dist := Real.sqrt (dx * dx + dy * dy)
    let angle := atan2 dy dx + t * spin
    let color := |Real.sin (angle * arms - dist * factor)|
    { ch := s.getD ((f32round dist).toNat % s.length) ' ',
      fg := Color.from_float (color - 0.5) (color * 0.5) color,
      bg := Color.Transparent }

/-- Embedding of `checkerboard` (src/lib.rs:151-181). -/
noncomputable def checkerboard (dt : ℝ) (width height : Nat) : List (Nat × Nat × Pixel) :=
  let pl : ℝ := 0.5
  let w : Nat := 5
  let h : Nat := 3
  let sn := Real.sin dt
  let cs := Real.cos dt
  rowTrace width height fun x y =>
    let theta := if ((x / w) % 2) ^^^ ((y / h) % 2) = 0 then sn else cs
    let l := inverse_lerp 0 ((width : ℝ) - 1) (x : ℝ)
    let color := |pl * theta * 0.5 + 0.5| + 1 * l
    { ch := ' ',
      bg := Color.from_float (color + l) (color - l) (color * l),
      fg := Color.Default }

/-- Embedding of `new_palette` (src/lib.rs:185-187): a zero-filled 256-entry
RGB table. -/
def new_palette : Array (Nat × Nat × Nat) :=
  Array.mkArray 256 (0, 0, 0)

/-- The palette-filling loop `for i in 0..255 { palette[i] = f i }` shared by
the three simulator constructors (note the exclusive upper bound: indices 0
through 254 only). -/
@[irreducible] def buildPalette (f : Nat → Nat × Nat × Nat) : Array (Nat × Nat × Nat) :=
  (List.range 255).foldl (fun p i => aset p i (f i)) new_palette

/-- One entry of the plasma palette (src/lib.rs:197-203):
`v = i/255*6 - 3`; `r = max(floor(cos(v*PI)*255), 0) as u8`; `g = v as u8`;
`b = max(floor(sin(v*PI)*255), 0) as u8`. -/
noncomputable def plasmaEntry (i : Nat) : Nat × Nat × Nat :=
  let v : ℝ := (i : ℝ) / 255 * 6 - 3
  (u8ofInt (max ⌊Real.cos (v * Real.pi) * 255⌋ 0),
   u8ofInt (ftrunc v),
   u8ofInt (max ⌊Real.sin (v * Real.pi) * 255⌋ 0))

/-- The palette built by `Plasma::new`. -/
noncomputable def plasmaPalette : Array (Nat × Nat × Nat) :=
  buildPalette plasmaEntry

/-- Embedding of the `Plasma` struct. -/
structure Plasma where
  palette : Array (Nat × Nat × Nat)

/-- Embedding of `Plasma::new` (src/lib.rs:194-206); width/height are unused
by the source. -/
noncomputable def Plasma.new (_width _height : Nat) : Plasma :=
  { palette := plasmaPalette }

/-- Embedding of `Plasma::update` (src/lib.rs:208), a no-op. -/
def Plasma.update (s : Plasma) (_width _height : Nat) : Plasma :=
  s

/-- The sum `v` of the three sinusoidal terms accumulated per cell by
`Plasma::render` (src/lib.rs:220-227). -/
noncomputable def plasmaSum (dt : ℝ) (width height x y : Nat) : ℝ :=
  let dy : ℝ := (y : ℝ) / (height : ℝ) - 0.5
  let dx : ℝ := (x : ℝ) / (width : ℝ) - 0.5
  let cx := dx + 0.5 * Real.sin dt
  let cy := dy + 0.5 * Real.cos dt
  Real.sin (dx * 10 + dt)
    + Real.sin (Real.sqrt (50 * (cx * cx + cy * cy) + 1) + dt)
    + Real.cos (Real.sqrt (dx * dx + dy * dy) - dt)

/-- The palette index computed per cell by `Plasma::render`
(src/lib.rs:228-230): the floored normalization `(v/6 + 0.5)*255` of the sum
`v`, then the saturating `as usize` cast. -/
noncomputable def plasmaIdx (dt : ℝ) (width height x y : Nat) : Nat :=
  (⌊(plasmaSum dt width height x y / 6 + 0.5) * 255⌋).toNat

/-- Embedding of `Plasma::render` (src/lib.rs:210-239): the state (taken by
`&mut self` but never written) and the trace of sink invocations. -/
noncomputable def Plasma.render (s : Plasma) (dt : ℝ) (width height : Nat) :
    Plasma × List (Nat × Nat × Pixel) :=
  (s, rowTrace width height fun x y =>
    { ch := ' ',
      fg := Color.Default,
      bg := Color.Rgb (aget3 s.palette (plasmaIdx dt width height x y)) })

/-- Embedding of the `Blob` struct (src/lib.rs:247-253). -/
structure Blob where
  sx : ℝ
  sy : ℝ
  speed : ℝ
  x : ℝ
  y : ℝ

/-- Embedding of the `Blobs` struct. -/
structure Blobs where
  palette : Array (Nat × Nat × Nat)
  shapes : List Blob

/-- The palette built by `Blobs::new` (src/lib.rs:258-261):
`[t/8, t/2, t/2]` for `t = i` an intensity byte. -/
def blobsPalette : Array (Nat × Nat × Nat) :=
  buildPalette fun i => (i / 8, i / 2, i / 2)

/-- Embedding of `Blobs::new` (src/lib.rs:256-276); the five blobs drawn from
the process-wide random source are passed in explicitly. -/
def Blobs.new (shapes : List Blob) : Blobs :=
  { palette := blobsPalette, shapes := shapes }

/-- Embedding of `Blobs::update` (src/lib.rs:278), a no-op. -/
def Blobs.update (s : Blobs) (_width _height : Nat) : Blobs :=
  s

/-- The per-frame blob position update loop of `Blobs::render`
(src/lib.rs:290-295), carrying the running `shift` (incremented by 2 per
blob). -/
noncomputable def moveBlobs (t cx cy : ℝ) (width height : Nat) :
    List Blob → ℝ → List Blob
  | [], _ => []
  | b :: rest, shift =>
      { b with
        x := Real.sin ((t + shift) * (2 * Real.pi) * b.speed) * (width : ℝ) * b.sx + cx,
        y := Real.cos ((t + shift) * (2 * Real.pi) * b.speed) * (height : ℝ) * b.sy + cy }
      :: moveBlobs t cx cy width height rest (shift + 2)

/-- The multiplicative accumulation `s` of Euclidean distances from a cell to
every blob (src/lib.rs:299-304), starting from 1. -/
noncomputable def blobsDist (x y : Nat) (shapes : List Blob) : ℝ :=
  shapes.foldl
    (fun s b =>
      s * Real.sqrt (((x : ℝ) - b.x) * ((x : ℝ) - b.x) + ((y : ℝ) - b.y) * ((y : ℝ) - b.y)))
    1

/-- The per-cell palette index of `Blobs::render` (src/lib.rs:306-307):
`theta = floor(width*2 - s/1e5)`, then `theta.clamp(0.0, 255.0) as u8`. -/
noncomputable def blobsColorOf (width : Nat) (s : ℝ) : Nat :=
  (max 0 (min 255 ⌊(width : ℝ) * 2 - s / 100000⌋)).toNat

/-- Embedding of `Blobs::render` (src/lib.rs:280-316): moves the blobs, then
emits one pixel per cell. -/
noncomputable def Blobs.render (s : Blobs) (dt : ℝ) (width height : Nat) :
    Blobs × List (Nat × Nat × Pixel) :=
  let cx : ℝ := (width : ℝ) / 2
  let cy : ℝ := (height : ℝ) / 2
  let t := dt / 300
  let shapes := moveBlobs t cx cy width height s.shapes 0
  ({ palette := s.palette, shapes := shapes },
   rowTrace width height fun x y =>
     { ch := ' ',
       fg := Color.Default,
       bg := Color.Rgb (aget3 s.palette (blobsColorOf width (blobsDist x y shapes))) })

/-- Model of an `f32` value for the safety analysis of `Blobs::render`: either
NaN, a signed infinity (`inf true` is positive), or a finite value represented
exactly as a rational. -/
inductive FVal where
  | nan : FVal
  | inf : Bool → FVal
  | fin : ℚ → FVal
deriving DecidableEq

/-- IEEE division of a distance product by the positive constant `1e5`. -/
def FVal.div1e5 : FVal → FVal
  | .nan => .nan
  | .inf b => .inf b
  | .fin q => .fin (q / 100000)

/-- IEEE subtraction of a value from the finite constant `width*2`. -/
def FVal.subFrom (a : ℚ) : FVal → FVal
  | .nan => .nan
  | .inf b => .inf (!b)
  | .fin q => .fin (a - q)

/-- IEEE `floor`: NaN and infinities are fixed points. -/
def FVal.floor : FVal → FVal
  | .nan => .nan
  | .inf b => .inf b
  | .fin q => .fin ⌊q⌋

/-- Rust `f32::clamp(lo, hi)`: comparisons with NaN are false, so NaN is
returned unchanged; infinities saturate to the bounds. -/
def FVal.clamp (lo hi : ℚ) : FVal → FVal
  | .nan => .nan
  | .inf b => if b then .fin hi else .fin lo
  | .fin q => if q < lo then .fin lo else if hi < q then .fin hi else .fin q

/-- Rational truncation toward zero, the first stage of a Rust float `as`
cast. -/
def qtrunc (q : ℚ) : ℤ :=
  if 0 ≤ q then ⌊q⌋ else -⌊-q⌋

/-- Rust saturating `as u8` cast from a float: NaN maps to 0, infinities and
out-of-range values saturate to the bounds. -/
def FVal.toU8 : FVal → Nat
  | .nan => 0
  | .inf b => if b then 255 else 0
  | .fin q => (max 0 (min 255 (qtrunc q))).toNat

/-- The `Blobs::render` palette-index pipeline (src/lib.rs:306-307) over the
`FVal` float model, with the distance product `s` arbitrary — including NaN
and infinite products. -/
def fblobsColor (width : Nat) (s : FVal) : Nat :=
  (((FVal.subFrom ((width : ℚ) * 2) s.div1e5).floor).clamp 0 255).toU8

/-- Embedding of the `Fire` struct (src/lib.rs:319-322). -/
structure Fire where
  palette : Array (Nat × Nat × Nat)
  particles : Array Nat

/-- The palette built by `Fire::new` (src/lib.rs:327-330):
`[t, t >> 2, t >> 4]` for `t = i` an intensity byte. -/
def firePalette : Array (Nat × Nat × Nat) :=
  buildPalette fun i => (i, i >>> 2, i >>> 4)

/-- The grid length `(width + 2) * (height + 2)` exactly as the source
computes it: in `u32` arithmetic (src/lib.rs:332, 338, 351), each addition and
the product wrapping modulo `2^32` (release semantics; debug builds panic on
the same overflow). At `width = height = 65534` the product is `2^32` and
wraps to 0. -/
def u32size (width height : Nat) : Nat :=
  ((width + 2) % 4294967296 * ((height + 2) % 4294967296)) % 4294967296

/-- Embedding of `Fire::new` (src/lib.rs:325-334): the palette plus a
zero-filled grid of `(width+2)*(height+2)` cells, the length computed in
`u32`. -/
def Fire.new (width height : Nat) : Fire :=
  { palette := firePalette,
    particles := Array.mkArray (u32size width height) 0 }

/-- Rust `Vec::resize(n, 0)`: truncate to `n` elements or pad with zeros. -/
def vresize (a : Array Nat) (n : Nat) : Array Nat :=
  if n ≤ a.size then a.extract 0 n else a ++ Array.mkArray (n - a.size) 0

/-- Embedding of `Fire::update` (src/lib.rs:336-340): resize the grid to
`(width+2)*(height+2)` — the length computed in `u32` — and then
unconditionally `fill(0)` (modelled as a map to zero). -/
def Fire.update (s : Fire) (width height : Nat) : Fire :=
  { s with particles := (vresize s.particles (u32size width height)).map fun _ => 0 }

/-- The flat-offset closure of `Fire::render` (src/lib.rs:349):
`offset(x, y) = y * width + x`. -/
def fireOffset (width x y : Nat) : Nat :=
  y * width + x

/-- One step of the diffusion pass of `Fire::render` (src/lib.rs:360-369):
sum the four neighbour offsets into an (exact) `i16`, shift right by 2,
subtract the cooling constant 2, absolute value, clamp to `[0,255]` (the lower
bound is vacuous after `abs`), store at the current offset. -/
def diffuseCell (width : Nat) (g : Array Nat) (o : Nat) : Array Nat :=
  let v := aget g (o + width - 1) + aget g (o + width)
    + aget g (o + width * 2) + aget g (o + width * 2 + 1)
  aset g o (min ((((v >>> 2 : Nat) : Int) - 2).natAbs) 255)

/-- The diffusion pass of `Fire::render` (src/lib.rs:355-371): the in-place
row-major sweep of `diffuseCell` over the interior cells. -/
def diffusePass (width height : Nat) (g : Array Nat) : Array Nat :=
  (List.range height).foldl
    (fun g y => (List.range width).foldl
      (fun g x => diffuseCell width g (fireOffset width x y)) g)
    g

/-- The seeding pass of `Fire::render` (src/lib.rs:373-376): each cell of the
source row `y = height` is set to 255 or 0 according to the random draw for
its column. -/
def seedPass (width height : Nat) (rand : Nat → Bool) (g : Array Nat) : Array Nat :=
  (List.range width).foldl
    (fun g x => aset g (fireOffset width x height) (if rand x then 255 else 0))
    g

/-- Embedding of `Fire::render` (src/lib.rs:342-390): self-heal when the grid
length mismatches, then diffusion, seeding, and the emit pass producing the
sink-invocation trace. -/
def Fire.render (s : Fire) (_dt : ℝ) (width height : Nat) (rand : Nat → Bool) :
    Fire × List (Nat × Nat × Pixel) :=
  let s := if s.particles.size ≠ u32size width height
    then s.update width height else s
  let g := seedPass width height rand (diffusePass width height s.particles)
  ({ s with particles := g },
   rowTrace width height fun x y =>
     { ch := ' ',
       fg := Color.Default,
       bg := Color.Rgb (aget3 s.palette (aget g (fireOffset width x y))) })

/-- Every grid index read or written by the three passes of `Fire::render`,
read off the source: the diffusion pass reads the four neighbour offsets and
writes the cell offset for every interior cell, the seeding pass writes the
row `y = height`, and the emit pass reads every interior cell. -/
def fireAccessList (width height : Nat) : List Nat :=
  ((List.range height).flatMap fun y => (List.range width).flatMap fun x =>
    let o := fireOffset width x y
    [o + width - 1, o + width, o + width * 2, o + width * 2 + 1, o])
  ++ ((List.range width).map fun x => fireOffset width x height)
  ++ ((List.range height).flatMap fun y => (List.range width).map fun x =>
    fireOffset width x y)

/-- The diffusion update written from the words of the specification: sum the
stored intensities of the four neighbour cells (one row down one column left,
one row down same column, two rows down same column, two rows down one column
right), right-shift by 2 (floor-divide by 4), subtract the cooling constant 2,
take the absolute value, clamp to `[0,255]`, and store at flat offset
`o = y*width + x`. -/
def diffuseSpecCell (width : Nat) (g : Array Nat) (o : Nat) : Array Nat :=
  let sum : Int := (aget g (o + width - 1) : Int) + (aget g (o + width) : Int)
    + (aget g (o + 2 * width) : Int) + (aget g (o + 2 * width + 1) : Int)
  aset g o (max 0 (min 255 |sum / 4 - 2|)).toNat

/-- Embedding of the panic semantics of `Fire::render`: the source performs
exactly the accesses of `fireAccessList` (in order) against the healed grid
and index-panics at the first out-of-bounds access, before any further sink
invocation; so the call returns normally — behaving as the total model
`Fire.render` — iff every access is within the healed grid, and fails
(`none`) otherwise. -/
def Fire.render? (s : Fire) (dt : ℝ) (width height : Nat) (rand : Nat → Bool) :
    Option (Fire × List (Nat × Nat × Pixel)) :=
  if (∀ i ∈ fireAccessList width height,
      i < (if s.particles.size ≠ u32size width height
        then s.update width height else s).particles.size)
    then some (s.render dt width height rand) else none

lemma size_aset {α : Type} (a : Array α) (i : Nat) (v : α) : (aset a i v).size = a.size := by
  unfold aset
  split <;> simp

lemma getD_aset_self {α : Type} (a : Array α) (i : Nat) (v d : α) (h : i < a.size) :
    (aset a i v).getD i d = v := by
  unfold aset
  rw [dif_pos h]
  have hs : i < (a.set ⟨i, h⟩ v).size := by simpa using h
  simp only [Array.getD, dif_pos hs]
  exact Array.get_set_eq a ⟨i, h⟩ v

lemma getD_aset_other {α : Type} (a : Array α) (i j : Nat) (v d : α) (hne : j ≠ i) :
    (aset a i v).getD j d = a.getD j d := by
  unfold aset
  split
  · next hi =>
      by_cases hj : j < a.size
      · have hs : j < (a.set ⟨i, hi⟩ v).size := by simpa using hj
        simp only [Array.getD, dif_pos hs, dif_pos hj]
        have hgs := Array.get_set a ⟨i, hi⟩ j hj v
        rw [if_neg (fun he => hne he.symm)] at hgs
        exact hgs
      · have hs : ¬ j < (a.set ⟨i, hi⟩ v).size := by simpa using hj
        simp [Array.getD, hs, hj]
  · rfl

lemma getD_mkArray {α : Type} (n : Nat) (v d : α) (i : Nat) :
    (Array.mkArray n v).getD i d = if i < n then v else d := by
  by_cases h : i < n
  · have hs : i < (Array.mkArray n v).size := by simpa using h
    simp [Array.getD, hs, h]
  · have hs : ¬ i < (Array.mkArray n v).size := by simpa using h
    simp [Array.getD, hs, h]

lemma size_foldl_inv {α ι : Type} (f : Array α → ι → Array α)
    (hf : ∀ g i, (f g i).size = g.size) :
    ∀ (l : List ι) (g : Array α), (l.foldl f g).size = g.size := by
  intro l
  induction l with
  | nil => intro g; rfl
  | cons hd tl ih => intro g; rw [List.foldl_cons, ih, hf]

lemma getD_foldl_aset_notin {α ι : Type} (off : ι → Nat) (v : ι → α) (d : α) :
    ∀ (l : List ι) (a : Array α) (i : Nat), (∀ j ∈ l, off j ≠ i) →
      (l.foldl (fun g j => aset g (off j) (v j)) a).getD i d = a.getD i d := by
  intro l
  induction l with
  | nil => intro a i _; rfl
  | cons hd tl ih =>
      intro a i h
      rw [List.foldl_cons, ih _ i (fun j hj => h j (List.mem_cons_of_mem hd hj)),
        getD_aset_other _ _ _ _ _ (fun he => h hd (List.mem_cons_self hd tl) he.symm)]

lemma buildPalette_size (f : Nat → Nat × Nat × Nat) : (buildPalette f).size = 256 := by
  unfold buildPalette
  rw [size_foldl_inv _ (fun g i => size_aset g i (f i))]
  simp [new_palette]

lemma buildPaletteAux (f : Nat → Nat × Nat × Nat) :
    ∀ n, n ≤ 255 → ∀ i, i < n →
      aget3 ((List.range n).foldl (fun p j => aset p j (f j)) new_palette) i = f i := by
  intro n
  induction n with
  | zero => intro _ i hi; omega
  | succ k ih =>
      intro hn i hi
      rw [List.range_succ, List.foldl_append, List.foldl_cons, List.foldl_nil]
      have hsize : ((List.range k).foldl (fun p j => aset p j (f j)) new_palette).size = 256 := by
        rw [size_foldl_inv _ (fun g j => size_aset g j (f j))]
        simp [new_palette]
      rcases Nat.lt_or_ge i k with hik | hik
      · unfold aget3
        rw [getD_aset_other _ _ _ _ _ (by omega)]
        exact ih (by omega) i hik
      · have hik2 : i = k := by omega
        subst hik2
        unfold aget3
        rw [getD_aset_self _ _ _ _ (by omega)]

lemma buildPalette_getD (f : Nat → Nat × Nat × Nat) (i : Nat) (h : i < 255) :
    aget3 (buildPalette f) i = f i := by
  unfold buildPalette
  exact buildPaletteAux f 255 (Nat.le_refl 255) i h

lemma buildPalette_255 (f : Nat → Nat × Nat × Nat) : aget3 (buildPalette f) 255 = (0, 0, 0) := by
  unfold buildPalette aget3
  rw [getD_foldl_aset_notin _ _ _ _ _ _ (by intro j hj; simp at hj; omega)]
  rw [show new_palette = Array.mkArray 256 (0, 0, 0) from rfl, getD_mkArray]
  simp

lemma coords_rowTrace (width height : Nat) (f : Nat → Nat → Pixel) :
    coords (rowTrace width height f) = pairList width height := by
  unfold coords rowTrace pairList
  rw [List.map_flatMap]
  simp [List.map_map, Function.comp_def]

lemma pairList_succ (width height : Nat) :
    pairList width (height + 1)
      = pairList width height ++ (List.range width).map (fun x => (x, height)) := by
  unfold pairList
  rw [List.range_succ, List.flatMap_append]
  simp

lemma pairList_length (width height : Nat) : (pairList width height).length = width * height := by
  induction height with
  | zero => simp [pairList]
  | succ k ih =>
      rw [pairList_succ, List.length_append, ih, List.length_map, List.length_range,
        Nat.mul_succ]

lemma pairList_getElem? (width height i : Nat) (h : i < width * height) :
    (pairList width height)[i]? = some (i % width, i / width) := by
  induction height with
  | zero => omega
  | succ k ih =>
      rw [pairList_succ]
      rcases Nat.lt_or_ge i (width * k) with hik | hik
      · rw [List.getElem?_append_left (by rw [pairList_length]; exact hik)]
        exact ih hik
      · have hlt : i < width * k + width := by
          rw [Nat.mul_succ] at h
          exact h
        have h1b : k * width ≤ i := by rw [Nat.mul_comm]; exact hik
        have h2b : i < Nat.succ k * width := by rw [Nat.succ_mul, Nat.mul_comm k width]; exact hlt
        have hd : i / width = k := Nat.div_eq_of_lt_le h1b h2b
        have hm := Nat.div_add_mod i width
        rw [hd] at hm
        rw [List.getElem?_append_right (by rw [pairList_length]; exact hik)]
        rw [pairList_length]
        have hx : i - width * k < width := by omega
        have hm2 : i % width = i - width * k := by omega
        rw [List.getElem?_map, List.getElem?_range hx, hm2, hd]
        rfl

lemma pairList_mem (width height x y : Nat) :
    (x, y) ∈ pairList width height ↔ x < width ∧ y < height := by
  unfold pairList
  simp only [List.mem_flatMap, List.mem_map, List.mem_range, Prod.mk.injEq]
  constructor
  · rintro ⟨a, ha, b, hb, hbx, hby⟩
    exact ⟨hbx ▸ hb, hby ▸ ha⟩
  · rintro ⟨hx, hy⟩
    exact ⟨y, hy, x, hx, rfl, rfl⟩

lemma pairList_sndlt (width height : Nat) :
    ∀ p ∈ pairList width height, p.2 < height := by
  rintro ⟨x, y⟩ hp
  exact ((pairList_mem width height x y).1 hp).2

lemma pairList_nodup (width height : Nat) : (pairList width height).Nodup := by
  induction height with
  | zero => simp [pairList]
  | succ k ih =>
      rw [pairList_succ, List.nodup_append]
      refine ⟨ih, ?_, ?_⟩
      · exact List.Nodup.map (fun a b hab => (Prod.ext_iff.1 hab).1) (List.nodup_range width)
      · rintro ⟨x, y⟩ hp hq
        have h1 : y < k := pairList_sndlt width k (x, y) hp
        have h2 : y = k := by
          rcases List.mem_map.1 hq with ⟨a, _, ha⟩
          exact ((Prod.ext_iff.1 ha).2).symm
        omega

lemma size_diffuseCell (width : Nat) (g : Array Nat) (o : Nat) :
    (diffuseCell width g o).size = g.size := by
  unfold diffuseCell
  exact size_aset _ _ _

lemma size_diffusePass (width height : Nat) (g : Array Nat) :
    (diffusePass width height g).size = g.size := by
  unfold diffusePass
  exact size_foldl_inv _
    (fun g y => size_foldl_inv _ (fun g x => size_diffuseCell width g _) _ g) _ g

lemma size_seedPass (width height : Nat) (rand : Nat → Bool) (g : Array Nat) :
    (seedPass width height rand g).size = g.size := by
  unfold seedPass
  exact size_foldl_inv _ (fun g x => size_aset _ _ _) _ g

lemma size_vresize (a : Array Nat) (n : Nat) : (vresize a n).size = n := by
  unfold vresize
  split
  · next h => simp; omega
  · next h => simp; omega

lemma map_zero_eq_mkArray (a : Array Nat) : a.map (fun _ => 0) = Array.mkArray a.size 0 := by
  apply Array.ext
  · simp
  · intro i h1 h2
    simp

lemma fire_update_particles (s : Fire) (width height : Nat) :
    (s.update width height).particles = Array.mkArray (u32size width height) 0 := by
  show (vresize s.particles (u32size width height)).map (fun _ => 0) = _
  rw [map_zero_eq_mkArray, size_vresize]

lemma u32size_eq (width height : Nat) (hno : (width + 2) * (height + 2) < 4294967296) :
    u32size width height = (width + 2) * (height + 2) := by
  have hw2 : width + 2 ≤ (width + 2) * (height + 2) := by
    have h := Nat.mul_le_mul_left (width + 2) (show 1 ≤ height + 2 by omega)
    simpa using h
  have hh2 : height + 2 ≤ (width + 2) * (height + 2) := by
    have h := Nat.mul_le_mul_right (height + 2) (show 1 ≤ width + 2 by omega)
    simpa using h
  have e1 : (width + 2) % 4294967296 = width + 2 := Nat.mod_eq_of_lt (by omega)
  have e2 : (height + 2) % 4294967296 = height + 2 := Nat.mod_eq_of_lt (by omega)
  unfold u32size
  rw [e1, e2, Nat.mod_eq_of_lt hno]

lemma foldl_flatMap_eq {α ι κ : Type} (l : List ι) (f : ι → List κ)
    (step : α → κ → α) (init : α) :
    (l.flatMap f).foldl step init = l.foldl (fun a b => (f b).foldl step a) init := by
  induction l generalizing init with
  | nil => rfl
  | cons hd tl ih => simp [List.flatMap_cons, List.foldl_append, ih]

lemma rowOffsets (width height : Nat) :
    ((List.range height).flatMap fun y => (List.range width).map fun x => y * width + x)
      = List.range (height * width) := by
  induction height with
  | zero => simp
  | succ k ih =>
      rw [List.range_succ, List.flatMap_append, ih, Nat.succ_mul, List.range_add]
      simp [Nat.mul_comm]

lemma diffusePass_offsets (width height : Nat) (g : Array Nat) :
    diffusePass width height g
      = (List.range (height * width)).foldl (diffuseCell width) g := by
  unfold diffusePass fireOffset
  rw [← rowOffsets width height, foldl_flatMap_eq]
  simp [List.foldl_map]

lemma diffuseCell_zero_inv (width N k : Nat) (hw : 1 ≤ width) (hk : k ≤ N) :
    ∀ i, aget ((List.range k).foldl (diffuseCell width) (Array.mkArray N 0)) i
      = if i < k then 2 else 0 := by
  induction k with
  | zero =>
      intro i
      rw [List.range_zero, List.foldl_nil]
      unfold aget
      rw [getD_mkArray]
      split <;> rfl
  | succ m ih =>
      intro i
      rw [List.range_succ, List.foldl_append, List.foldl_cons, List.foldl_nil]
      have ihm := ih (by omega)
      have hsize : ((List.range m).foldl (diffuseCell width) (Array.mkArray N 0)).size = N := by
        rw [size_foldl_inv _ (fun g o => size_diffuseCell width g o)]
        simp
      set A := (List.range m).foldl (diffuseCell width) (Array.mkArray N 0) with hA
      have hz : ∀ j, m ≤ j → aget A j = 0 := by
        intro j hj
        rw [ihm j, if_neg (by omega)]
      unfold diffuseCell
      have h1 : aget A (m + width - 1) = 0 := hz _ (by omega)
      have h2 : aget A (m + width) = 0 := hz _ (by omega)
      have h3 : aget A (m + width * 2) = 0 := hz _ (by omega)
      have h4 : aget A (m + width * 2 + 1) = 0 := hz _ (by omega)
      rw [h1, h2, h3, h4]
      show aget (aset A m 2) i = if i < m + 1 then 2 else 0
      by_cases him : i = m
      · subst him
        unfold aget
        rw [getD_aset_self _ _ _ _ (by omega)]
        rw [if_pos (by omega)]
      · unfold aget
        rw [getD_aset_other _ _ _ _ _ him]
        show aget A i = _
        rw [ihm i]
        rcases Nat.lt_or_ge i m with hlt | hge
        · rw [if_pos hlt, if_pos (by omega)]
        · rw [if_neg (by omega), if_neg (by omega)]

lemma seedPass_interior (width height : Nat) (rand : Nat → Bool) (g : Array Nat) (i : Nat)
    (hi : i < height * width) :
    aget (seedPass width height rand g) i = aget g i := by
  unfold seedPass aget
  rw [getD_foldl_aset_notin]
  intro j hj
  unfold fireOffset
  omega

lemma clampAbsEq (v : Nat) :
    min ((((v >>> 2 : Nat) : Int) - 2).natAbs) 255
      = (max 0 (min 255 |((v : Int)) / 4 - 2|)).toNat := by
  have hs : ((v >>> 2 : Nat) : Int) = (v : Int) / 4 := by
    rw [Nat.shiftRight_eq_div_pow]
    norm_num
  rw [hs, Int.abs_eq_natAbs]
  omega

lemma diffuseCell_eq_spec (width : Nat) (g : Array Nat) (o : Nat) :
    diffuseCell width g o = diffuseSpecCell width g o := by
  unfold diffuseCell diffuseSpecCell
  dsimp only
  rw [show 2 * width = width * 2 from Nat.mul_comm 2 width, clampAbsEq]
  congr 1

lemma fire_interior_bound (width height x y : Nat) (hx : x < width) (hy : y < height) :
    y * width + x + width * 2 + 1 < (width + 2) * (height + 2) := by
  have h1 : y * width + x + width * 2 + 1 < (y + 1) * width + width * 2 + 1 := by
    rw [Nat.succ_mul]
    omega
  have h2 : (y + 1) * width ≤ height * width := Nat.mul_le_mul_right width (by omega)
  have h3 : (height + 2) * width = height * width + 2 * width := by ring
  have h4 : (height + 2) * width + (height + 2) * 2 = (width + 2) * (height + 2) := by ring
  omega

lemma fire_seed_bound (width height x : Nat) (hx : x < width) :
    height * width + x < (width + 2) * (height + 2) := by
  have h1 : height * width + x < (height + 1) * width := by
    rw [Nat.succ_mul]
    omega
  have h2 : (height + 1) * width ≤ (height + 2) * width := Nat.mul_le_mul_right width (by omega)
  have h3 : (height + 2) * width + (height + 2) * 2 = (width + 2) * (height + 2) := by ring
  omega

lemma interior_offset_lt (width height x y : Nat) (hx : x < width) (hy : y < height) :
    y * width + x < height * width := by
  have h1 : y * width + x < (y + 1) * width := by
    rw [Nat.succ_mul]
    omega
  have h2 : (y + 1) * width ≤ height * width := Nat.mul_le_mul_right width (by omega)
  omega

lemma grid_area_le (width height : Nat) :
    height * width ≤ (width + 2) * (height + 2) := by
  have h := Nat.mul_le_mul (show height ≤ height + 2 by omega) (show width ≤ width + 2 by omega)
  rw [Nat.mul_comm (height + 2) (width + 2)] at h
  exact h

lemma fire_render_size (s : Fire) (dt : ℝ) (width height : Nat) (rand : Nat → Bool) :
    ((s.render dt width height rand).fst).particles.size = u32size width height := by
  unfold Fire.render
  simp only [size_seedPass, size_diffusePass]
  split
  · next h => rw [fire_update_particles]; simp
  · next h => exact not_ne_iff.mp h

lemma fire_healed_size (s : Fire) (width height : Nat) :
    (if s.particles.size ≠ u32size width height
      then s.update width height else s).particles.size = u32size width height := by
  split
  · rw [fire_update_particles]; simp
  · next h => exact not_ne_iff.mp h

lemma fire_render_zero_grid (width height : Nat) (hw : 1 ≤ width) (_hh : 1 ≤ height)
    (hno : (width + 2) * (height + 2) < 4294967296)
    (dt : ℝ) (x y : Nat) (hx : x < width) (hy : y < height) :
    aget (((Fire.new width height).render dt width height (fun _ => false)).fst.particles)
      (y * width + x) = 2 := by
  have hu : u32size width height = (width + 2) * (height + 2) := u32size_eq width height hno
  have hsz : (Fire.new width height).particles.size = u32size width height := by
    simp [Fire.new]
  have hoff : y * width + x < height * width := interior_offset_lt width height x y hx hy
  unfold Fire.render
  rw [if_neg (fun hc => hc hsz)]
  simp only [Fire.new]
  rw [hu, seedPass_interior _ _ _ _ _ hoff, diffusePass_offsets,
    diffuseCell_zero_inv width _ _ hw (grid_area_le width height), if_pos hoff]

lemma sum3_bound (a b c : ℝ) (ha1 : -1 ≤ a) (ha2 : a ≤ 1) (hb1 : -1 ≤ b) (hb2 : b ≤ 1)
    (hc1 : -1 ≤ c) (hc2 : c ≤ 1) : -3 ≤ a + b + c ∧ a + b + c ≤ 3 :=
  ⟨by linarith, by linarith⟩

lemma plasma_norm_bound (v : ℝ) (_h1 : -3 ≤ v) (h2 : v ≤ 3) :
    (⌊(v / 6 + 0.5) * 255⌋).toNat < 256 := by
  have he : (v / 6 + 0.5) * 255 ≤ 255 := by nlinarith
  have hf : ⌊(v / 6 + 0.5) * 255⌋ ≤ ⌊(255 : ℝ)⌋ := Int.floor_le_floor he
  have hf2 : ⌊(255 : ℝ)⌋ = 255 := by norm_num
  omega

/-- Claim C2: for every `dt` (including extreme values such as `dt = 1e6`) and
every width, height and cell, the palette index computed by `Plasma::render` —
the floor of `(v/6 + 0.5)*255` where `v` sums three sinusoidal terms — lies in
the palette domain `[0,255]` at the moment of lookup (the lower bound holds
because the saturating cast lands in `ℕ`), so the 256-entry palette access is
never out of bounds. -/
theorem plasma_index_in_palette (dt : ℝ) (width height x y : Nat) :
    plasmaIdx dt width height x y < 256
      ∧ (Plasma.new width height).palette.size = 256 := by
  have hb : -3 ≤ plasmaSum dt width height x y ∧ plasmaSum dt width height x y ≤ 3 := by
    unfold plasmaSum
    constructor
    · have h1 := Real.neg_one_le_sin (((x : ℝ) / (width : ℝ) - 0.5) * 10 + dt)
      have h2 := Real.neg_one_le_sin (Real.sqrt (50 * (((x : ℝ) / (width : ℝ) - 0.5
        + 0.5 * Real.sin dt) * ((x : ℝ) / (width : ℝ) - 0.5 + 0.5 * Real.sin dt)
        + ((y : ℝ) / (height : ℝ) - 0.5 + 0.5 * Real.cos dt)
        * ((y : ℝ) / (height : ℝ) - 0.5 + 0.5 * Real.cos dt)) + 1) + dt)
      have h3 := Real.neg_one_le_cos (Real.sqrt (((x : ℝ) / (width : ℝ) - 0.5)
        * ((x : ℝ) / (width : ℝ) - 0.5) + ((y : ℝ) / (height : ℝ) - 0.5)
        * ((y : ℝ) / (height : ℝ) - 0.5)) - dt)
      linarith
    · have h1 := Real.sin_le_one (((x : ℝ) / (width : ℝ) - 0.5) * 10 + dt)
      have h2 := Real.sin_le_one (Real.sqrt (50 * (((x : ℝ) / (width : ℝ) - 0.5
        + 0.5 * Real.sin dt) * ((x : ℝ) / (width : ℝ) - 0.5 + 0.5 * Real.sin dt)
        + ((y : ℝ) / (height : ℝ) - 0.5 + 0.5 * Real.cos dt)
        * ((y : ℝ) / (height : ℝ) - 0.5 + 0.5 * Real.cos dt)) + 1) + dt)
      have h3 := Real.cos_le_one (Real.sqrt (((x : ℝ) / (width : ℝ) - 0.5)
        * ((x : ℝ) / (width : ℝ) - 0.5) + ((y : ℝ) / (height : ℝ) - 0.5)
        * ((y : ℝ) / (height : ℝ) - 0.5)) - dt)
      linarith
  refine ⟨plasma_norm_bound _ hb.1 hb.2, ?_⟩
  show plasmaPalette.size = 256
  show (buildPalette plasmaEntry).size = 256
  exact buildPalette_size plasmaEntry

lemma fireAccessList_bound (width height : Nat) :
    ∀ i ∈ fireAccessList width height, i < (width + 2) * (height + 2) := by
  intro i hi
  unfold fireAccessList fireOffset at hi
  simp only [List.mem_append, List.mem_flatMap, List.mem_map, List.mem_range,
    List.mem_cons, List.not_mem_nil, or_false] at hi
  rcases hi with (⟨y, hy, x, hx, hcase⟩ | ⟨x, hx, hcase⟩) | ⟨y, hy, x, hx, hcase⟩
  · have hb := fire_interior_bound width height x y hx hy
    omega
  · have hb := fire_seed_bound width height x hx
    omega
  · have hb := fire_interior_bound width height x y hx hy
    omega

lemma fire_render_some (s : Fire) (dt : ℝ) (width height : Nat) (rand : Nat → Bool)
    (hall : ∀ i ∈ fireAccessList width height, i < u32size width height) :
    s.render? dt width height rand = some (s.render dt width height rand) := by
  unfold Fire.render?
  rw [if_pos]
  rw [fire_healed_size]
  exact hall

lemma u32size_overflow : u32size 65534 65534 = 0 := by
  decide

lemma fire_access_65533 : 65533 ∈ fireAccessList 65534 65534 := by
  unfold fireAccessList fireOffset
  simp only [List.mem_append, List.mem_flatMap, List.mem_range, List.mem_cons,
    List.not_mem_nil, or_false]
  exact Or.inl (Or.inl ⟨0, by norm_num, 0, by norm_num, Or.inl (by norm_num)⟩)

lemma fire_render_overflow_none (s : Fire) (dt : ℝ) (rand : Nat → Bool) :
    s.render? dt 65534 65534 rand = none := by
  unfold Fire.render?
  have hno : ¬ ∀ i ∈ fireAccessList 65534 65534,
      i < (if s.particles.size ≠ u32size 65534 65534
        then s.update 65534 65534 else s).particles.size := by
    intro hall
    have h1 := hall 65533 fire_access_65533
    rw [fire_healed_size, u32size_overflow] at h1
    exact Nat.not_lt_zero 65533 h1
  rw [if_neg hno]

/-- Claim C1 as amended: for the five stateless generators and the render
methods of `Plasma` and `Blobs`, for any width and height — and for
`Fire::render` whenever the `u32` size product `(width+2)*(height+2)` does not
overflow, so the call returns — the sink is invoked exactly once for every
pair `(x, y)` with `0 ≤ x < width`, `0 ≤ y < height`: `width*height`
invocations in total, in row-major order (`y` outer ascending, `x` inner
ascending: the `i`-th invocation targets cell `(i % width, i / width)`), with
no cell skipped or repeated. (At overflow sizes `Fire::render` fails with
zero sink invocations; see the counterexample.) -/
theorem render_sink_row_major (dt : ℝ) (width height : Nat)
    (P : Plasma) (B : Blobs) (F : Fire) (rand : Nat → Bool) :
    coords (vertical_wave dt width height) = pairList width height
    ∧ coords (horizontal_wave dt width height) = pairList width height
    ∧ coords (pulse dt width height) = pairList width height
    ∧ coords (spiral dt width height) = pairList width height
    ∧ coords (checkerboard dt width height) = pairList width height
    ∧ coords (P.render dt width height).snd = pairList width height
    ∧ coords (B.render dt width height).snd = pairList width height
    ∧ ((width + 2) * (height + 2) < 4294967296
        → (F.render? dt width height rand).map (fun t => coords t.snd)
            = some (pairList width height))
    ∧ (pairList width height).length = width * height
    ∧ (∀ x y, (x, y) ∈ pairList width height ↔ x < width ∧ y < height)
    ∧ (pairList width height).Nodup
    ∧ (∀ i, i < width * height → (pairList width height)[i]? = some (i % width, i / width)) := by
  refine ⟨coords_rowTrace _ _ _, coords_rowTrace _ _ _, coords_rowTrace _ _ _,
    coords_rowTrace _ _ _, coords_rowTrace _ _ _, coords_rowTrace _ _ _,
    coords_rowTrace _ _ _, ?_,
    pairList_length width height, fun x y => pairList_mem width height x y,
    pairList_nodup width height, fun i hi => pairList_getElem? width height i hi⟩
  intro hno
  rw [fire_render_some F dt width height rand
    (by rw [u32size_eq width height hno]; exact fireAccessList_bound width height)]
  show some (coords (F.render dt width height rand).snd) = some (pairList width height)
  exact congrArg some (coords_rowTrace _ _ _)

/-- Counterexample to C1 as stated (with an unrestricted `Fire::render`
conjunct): at `width = height = 65534` the `u32` size product wraps to 0, the
render call index-panics before the emit pass, and the sink is invoked zero
times instead of the required `65534 * 65534 > 0` times. -/
theorem fire_render_overflow_no_sweep :
    Fire.render? ⟨#[], #[]⟩ 0 65534 65534 (fun _ => false) = none
    ∧ 65534 * 65534 ≠ 0 :=
  ⟨fire_render_overflow_none _ _ _, by norm_num⟩

/-- Witness for the amended C1 at `width = 3`, `height = 2`: the fifth sink
invocation (index 4) targets cell `(1, 1)`, and `Fire::render` succeeds with
the full row-major trace. -/
theorem render_sink_row_major_witness :
    (pairList 3 2)[4]? = some (1, 1)
    ∧ (Fire.render? ⟨#[], #[]⟩ 0 3 2 (fun _ => false)).map (fun t => coords t.snd)
        = some (pairList 3 2) :=
  ⟨(render_sink_row_major 0 3 2 ⟨#[]⟩ ⟨#[], []⟩ ⟨#[], #[]⟩
      (fun _ => false)).2.2.2.2.2.2.2.2.2.2.2 4 (by decide),
   (render_sink_row_major 0 3 2 ⟨#[]⟩ ⟨#[], []⟩ ⟨#[], #[]⟩
      (fun _ => false)).2.2.2.2.2.2.2.1 (by decide)⟩

/-- Claim C3 as amended: for every `width ≥ 1` and `height ≥ 1` whose `u32`
size product `(width+2)*(height+2)` does not overflow (stays below `2^32`),
and any prior grid state, after the self-heal check every buffer index read or
written by the diffusion pass (up to `offset + 2*width + 1`), the seeding pass
(row `y = height`) and the emit pass is strictly below `(width+2)*(height+2)`,
the healed grid the passes operate on has exactly that length, and the
panic-modelling render succeeds — no access is out of bounds and the call
cannot fail. (At overflow sizes such as `width = height = 65534` the source's
`u32` product wraps to 0 and the call index-panics; see the counterexample.) -/
theorem fire_render_accesses_in_bounds (width height : Nat)
    (hw : 1 ≤ width) (hh : 1 ≤ height)
    (hno : (width + 2) * (height + 2) < 4294967296)
    (s : Fire) (dt : ℝ) (rand : Nat → Bool) :
    (∀ i ∈ fireAccessList width height, i < (width + 2) * (height + 2))
    ∧ (s.render dt width height rand).fst.particles.size = (width + 2) * (height + 2)
    ∧ s.render? dt width height rand = some (s.render dt width height rand) := by
  have hu : u32size width height = (width + 2) * (height + 2) := u32size_eq width height hno
  refine ⟨fireAccessList_bound width height, ?_, ?_⟩
  · rw [fire_render_size, hu]
  · exact fire_render_some s dt width height rand
      (by rw [hu]; exact fireAccessList_bound width height)

/-- Counterexample to C3 as stated (without the overflow guard): at `width =
height = 65534` the `u32` product `(width+2)*(height+2)` wraps to 0, the
self-healed grid is empty, the first diffusion read (index `65533 = offset(0,0)
+ width - 1`, a member of the access list) is out of bounds, and the render
call fails. -/
theorem fire_render_overflow_out_of_bounds :
    u32size 65534 65534 = 0
    ∧ 65533 ∈ fireAccessList 65534 65534
    ∧ Fire.render? ⟨#[], Array.mkArray 9 0⟩ 0 65534 65534 (fun _ => false) = none :=
  ⟨u32size_overflow, fire_access_65533, fire_render_overflow_none _ _ _⟩

/-- Witness for the amended C3 at `width = height = 1` with an empty
(mismatched) prior grid, exercising the self-heal path. -/
theorem fire_render_accesses_in_bounds_witness :
    (∀ i ∈ fireAccessList 1 1, i < 9)
    ∧ (Fire.render ⟨#[], #[]⟩ 0 1 1 (fun _ => false)).fst.particles.size = 9
    ∧ Fire.render? ⟨#[], #[]⟩ 0 1 1 (fun _ => false)
        = some (Fire.render ⟨#[], #[]⟩ 0 1 1 (fun _ => false)) :=
  fire_render_accesses_in_bounds 1 1 (by decide) (by decide) (by decide)
    ⟨#[], #[]⟩ 0 (fun _ => false)

/-- Claim C6: the diffusion pass of `Fire::render` iterates `y` outer from 0
to `height-1` and `x` inner from 0 to `width-1`, and replaces the cell at flat
offset `o = y*width + x`, in place in the partially updated buffer, by
`clamp(|((p[o+width-1] + p[o+width] + p[o+2*width] + p[o+2*width+1]) >> 2) - 2|, 0, 255)`
— exactly these four neighbour offsets, the sum floor-divided by 4, cooling
constant 2 subtracted, absolute value, clamped to `[0,255]`. -/
theorem fire_diffusion_formula (width height : Nat) (g : Array Nat) :
    diffusePass width height g
      = (List.range height).foldl
          (fun g y => (List.range width).foldl
            (fun g x => diffuseSpecCell width g (y * width + x)) g) g := by
  unfold diffusePass fireOffset
  simp only [diffuseCell_eq_spec]

/-- Claim C7: with the random seeding draw fixed to produce 0 (never 255) and
starting from the all-zero grid of `Fire::new` — a properly sized all-zero
grid, which exists in the program exactly when the `u32` size product
`(width+2)*(height+2)` does not overflow — after one render call every
interior cell at offset `y*width + x` holds `2 = |(0 >> 2) - 2|`: the grid
does not stay all-zero, the zero-fuel recurrence has its fixed point at 2. -/
theorem fire_zero_fuel_fixed_point (width height : Nat) (hw : 1 ≤ width) (hh : 1 ≤ height)
    (hno : (width + 2) * (height + 2) < 4294967296)
    (dt : ℝ) (x y : Nat) (hx : x < width) (hy : y < height) :
    aget (((Fire.new width height).render dt width height (fun _ => false)).fst.particles)
      (y * width + x) = 2 :=
  fire_render_zero_grid width height hw hh hno dt x y hx hy

/-- Witness for C7 at `width = height = 1`, cell `(0, 0)`. -/
theorem fire_zero_fuel_fixed_point_witness :
    aget (((Fire.new 1 1).render 0 1 1 (fun _ => false)).fst.particles) 0 = 2 :=
  fire_zero_fuel_fixed_point 1 1 (by decide) (by decide) (by decide) 0 0 0
    (by decide) (by decide)

/-- Claim C8: `Color::from_float` clamps each channel to `[0,1]`, scales by
255 and rounds to nearest, always producing an `Rgb` value; in particular
`from_float([-1,-1,-1]) = Rgb([0,0,0])`, `from_float([2,2,2]) =
Rgb([255,255,255])` and `from_float([0.5,0.5,0.5]) = Rgb([128,128,128])`. -/
theorem color_from_float_spec :
    Color.from_float (-1) (-1) (-1) = Color.Rgb (0, 0, 0)
    ∧ Color.from_float 2 2 2 = Color.Rgb (255, 255, 255)
    ∧ Color.from_float 0.5 0.5 0.5 = Color.Rgb (128, 128, 128)
    ∧ ∀ r g b : ℝ, ∃ t, Color.from_float r g b = Color.Rgb t := by
  refine ⟨?_, ?_, ?_, fun r g b => ⟨_, rfl⟩⟩
  all_goals
    unfold Color.from_float Color.scale fclamp f32round u8ofInt
    norm_num [round_eq]
    try rfl

lemma toU8_le (v : FVal) : v.toU8 ≤ 255 := by
  cases v with
  | nan => exact Nat.zero_le 255
  | inf b => cases b <;> simp [FVal.toU8]
  | fin q => simp only [FVal.toU8]; omega

/-- Claim C9: in `Blobs::render`, for every cell, `dt`, width, height and blob
configuration — including distance products that are infinite or NaN, covered
by the `FVal` float model — the palette index obtained by flooring
`width*2 - s/1e5`, clamping to `[0,255]` and casting to a byte lies in
`[0,255]`, so the 256-entry palette lookup is never out of bounds. -/
theorem blobs_index_in_palette :
    (∀ (width : Nat) (s : ℝ), blobsColorOf width s ≤ 255)
    ∧ (∀ (width : Nat) (s : FVal), fblobsColor width s ≤ 255)
    ∧ blobsPalette.size = 256 := by
  refine ⟨fun width s => ?_, fun width s => toU8_le _, ?_⟩
  · unfold blobsColorOf
    omega
  · show (buildPalette fun i => (i / 8, i / 2, i / 2)).size = 256
    exact buildPalette_size _

/-- Claim C10: the palette-filling loop of each simulator constructor writes
only indices 0 through 254, so entry 255 keeps its zero initialisation
`[0,0,0]`; and no update or render call of `Plasma`, `Blobs` or `Fire` ever
writes the palette, so the property persists across every call. -/
theorem palette_entry_255_black :
    aget3 plasmaPalette 255 = (0, 0, 0)
    ∧ aget3 blobsPalette 255 = (0, 0, 0)
    ∧ aget3 firePalette 255 = (0, 0, 0)
    ∧ (∀ w h : Nat, (Plasma.new w h).palette = plasmaPalette)
    ∧ (∀ shapes, (Blobs.new shapes).palette = blobsPalette)
    ∧ (∀ w h : Nat, (Fire.new w h).palette = firePalette)
    ∧ (∀ (s : Plasma) (w h : Nat), (s.update w h).palette = s.palette)
    ∧ (∀ (s : Plasma) (dt : ℝ) (w h : Nat), (s.render dt w h).fst.palette = s.palette)
    ∧ (∀ (s : Blobs) (w h : Nat), (s.update w h).palette = s.palette)
    ∧ (∀ (s : Blobs) (dt : ℝ) (w h : Nat), (s.render dt w h).fst.palette = s.palette)
    ∧ (∀ (s : Fire) (w h : Nat), (s.update w h).palette = s.palette)
    ∧ (∀ (s : Fire) (dt : ℝ) (w h : Nat) (r : Nat → Bool),
        (s.render dt w h r).fst.palette = s.palette) := by
  refine ⟨buildPalette_255 _, buildPalette_255 _, buildPalette_255 _,
    fun w h => rfl, fun shapes => rfl, fun w h => rfl,
    fun s w h => rfl, fun s dt w h => rfl, fun s w h => rfl, fun s dt w h => rfl,
    fun s w h => rfl, fun s dt w h r => ?_⟩
  unfold Fire.render
  split <;> rfl

/-- Counterexample to C4 as stated: a `(1+2)*(1+2)`-cell grid holding heat at
offset 0 is zero-filled by `Fire::update(1, 1)` even though the requested size
equals the current size — the heat history is not left unchanged. -/
theorem fire_update_same_size_clears :
    (Fire.mk #[] (aset (Array.mkArray 9 0) 0 1)).particles.size = (1 + 2) * (1 + 2)
    ∧ (Fire.update (Fire.mk #[] (aset (Array.mkArray 9 0) 0 1)) 1 1).particles
        ≠ (Fire.mk #[] (aset (Array.mkArray 9 0) 0 1)).particles := by
  constructor
  · decide
  · decide

/-- Claim C4 as amended: `Fire::update(width, height)` resizes the grid to
`(width+2)*(height+2)` cells — the length computed in `u32`, wrapping modulo
`2^32`, and equal to the mathematical product whenever that is below `2^32` —
and unconditionally zero-fills it: even when the requested size equals the
current size, the accumulated heat history is discarded. -/
theorem fire_update_zero_fills (s : Fire) (width height : Nat) :
    (s.update width height).particles = Array.mkArray (u32size width height) 0
    ∧ ((width + 2) * (height + 2) < 4294967296
        → u32size width height = (width + 2) * (height + 2)) :=
  ⟨fire_update_particles s width height, u32size_eq width height⟩

/-- Witness for the amended C4 at `width = height = 1`: the grid becomes the
nine-cell zero grid. -/
theorem fire_update_zero_fills_witness :
    (Fire.update ⟨#[], #[]⟩ 1 1).particles = Array.mkArray 9 0 ∧ u32size 1 1 = 9 :=
  ⟨(fire_update_zero_fills ⟨#[], #[]⟩ 1 1).1, (fire_update_zero_fills ⟨#[], #[]⟩ 1 1).2 (by decide)⟩

/-- Counterexample to C5 as stated: the palette entry of `Fire` at index 255
is not `[255, 255 >> 2, 255 >> 4]` — the construction loop `for i in 0..255`
excludes index 255. -/
theorem fire_palette_255_not_formula :
    aget3 firePalette 255 ≠ (255, 255 >>> 2, 255 >>> 4) := by
  rw [show firePalette = buildPalette (fun i => (i, i >>> 2, i >>> 4)) from rfl,
    buildPalette_255]
  decide

/-- Claim C5 as amended: after `Fire::new`, the palette entry at every index
`i ≤ 254` equals `[i, i >> 2, i >> 4]`, while entry 255 keeps its zero
initialisation `[0, 0, 0]`. -/
theorem fire_palette_entries (i : Nat) (h : i ≤ 254) :
    aget3 firePalette i = (i, i >>> 2, i >>> 4)
    ∧ aget3 firePalette 255 = (0, 0, 0) :=
  ⟨by
    rw [show firePalette = buildPalette (fun i => (i, i >>> 2, i >>> 4)) from rfl]
    exact buildPalette_getD _ i (by omega),
   by
    rw [show firePalette = buildPalette (fun i => (i, i >>> 2, i >>> 4)) from rfl]
    exact buildPalette_255 _⟩

/-- Witness for the amended C5 at index 10: `[10, 10 >> 2, 10 >> 4] =
[10, 2, 0]`. -/
theorem fire_palette_entries_witness :
    aget3 firePalette 10 = (10, 2, 0) ∧ aget3 firePalette 255 = (0, 0, 0) :=
  fire_palette_entries 10 (by decide)
